import Mathlib

set_option maxHeartbeats 1000000

namespace EvtFilter

/-!
Shallow embedding of src/evtfilter.py: a parallel EVT/EVTX time-window
extractor. Pure parts of the program are translated into Lean functions;
external effects (the filesystem, the subprocess call to the decoder tool,
the pandas XML parser) are supplied by explicit environment records, and
the effectful worker is modelled as a function from such an environment to
a result paired with an event trace.
-/

/-- The pandas dtypes relevant to the program: free-text columns are
object dtype, EventID columns are integer, a converted TimeGenerated
column is datetime. -/
inductive DType where
  | object
  | int64
  | datetime64
  deriving DecidableEq, Repr

/-- A cell value of a parsed table: text, raw binary, integer, a parsed
timestamp, or the missing marker (NaN / NaT). -/
inductive Value where
  | str (s : String)
  | bytes (b : List Nat)
  | int (n : Int)
  | time (t : Int)
  | null
  deriving DecidableEq, Repr

/-- A record: a mapping from column name to value, as an association list. -/
abbrev Row := List (String × Value)

def rowGet : Row → String → Option Value
  | [], _ => none
  | p :: ps, c => if p.1 = c then some p.2 else rowGet ps c

def rowSet : Row → String → Value → Row
  | [], c, v => [(c, v)]
  | p :: ps, c, v => if p.1 = c then (c, v) :: ps else p :: rowSet ps c v

/-- A named column with its dtype. -/
structure Col where
  name : String
  dtype : DType
  deriving DecidableEq, Repr

/-- A pandas DataFrame: an ordered column schema and a list of rows. -/
structure Frame where
  cols : List Col
  rows : List Row
  deriving DecidableEq, Repr

def Frame.hasCol (f : Frame) (c : String) : Bool :=
  f.cols.any (fun k => k.name == c)

def isPySpace (c : Char) : Bool := c.isWhitespace

/-- Python str.strip on a token (whitespace removed from both ends). -/
def pyStrip (s : String) : String :=
  String.mk (((s.toList.dropWhile isPySpace).reverse.dropWhile isPySpace).reverse)

def splitCommaAux : List Char → List Char → List (List Char)
  | [], acc => [acc.reverse]
  | c :: cs, acc =>
    if c = ',' then acc.reverse :: splitCommaAux cs [] else splitCommaAux cs (c :: acc)

/-- Python str.split on the comma separator. -/
def pySplitComma (s : String) : List String :=
  (splitCommaAux s.toList []).map String.mk

def digitVal (c : Char) : Nat := c.toNat - 48

/-- One step of scanning the digit part of a Python integer literal: the
state is (accumulated value, last character was a digit); a single
underscore is allowed between digits. -/
def pyDigitsStep : Option (Nat × Bool) → Char → Option (Nat × Bool)
  | none, _ => none
  | some st, c =>
    if c.isDigit then some (st.1 * 10 + digitVal c, true)
    else if c = '_' then (if st.2 then some (st.1, false) else none)
    else none

def pyParseDigits (cs : List Char) : Option Nat :=
  match cs.foldl pyDigitsStep (some (0, false)) with
  | some (n, true) => some n
  | _ => none

/-- Python int(s) on a text token: optional sign followed by a nonempty
digit sequence with optional single underscores between digits; anything
else raises ValueError, modelled as none. -/
def pyParseInt (s : String) : Option Int :=
  match (pyStrip s).toList with
  | [] => none
  | c :: rest =>
    if c = '+' then (pyParseDigits rest).map (fun n => (n : Int))
    else if c = '-' then (pyParseDigits rest).map (fun n => -(n : Int))
    else (pyParseDigits (c :: rest)).map (fun n => (n : Int))

/-- The ValueError raised by int() on a malformed token. -/
inductive ParseError where
  | invalidLiteral (tok : String)
  deriving DecidableEq, Repr

/-- int() applied to each token in order; the first malformed token raises. -/
def parseAll : List String → Except ParseError (List Int)
  | [] => .ok []
  | t :: ts =>
    match pyParseInt t with
    | none => .error (.invalidLiteral t)
    | some n =>
      match parseAll ts with
      | .ok ns => .ok (n :: ns)
      | .error e => .error e

/-- The nonempty stripped tokens of the inline comma-separated list. -/
def idTokens (s : String) : List String :=
  ((pySplitComma s).map pyStrip).filter (fun t => t != "")

/-- The nonempty stripped lines of the ID file. -/
def fileTokens (lines : List String) : List String :=
  (lines.map pyStrip).filter (fun t => t != "")

/-- All tokens _load_id_list feeds to int(), inline list first then file
lines, mirroring the two extend calls; the truthiness test on the inline
argument treats an empty string like an absent one. -/
def allTokens (argVal : Option String) (fileLines : Option (List String)) : List String :=
  (match argVal with
   | some s => if s != "" then idTokens s else []
   | none => []) ++
  (match fileLines with
   | some ls => fileTokens ls
   | none => [])

/-- _load_id_list: merge the inline list and the file into one integer
list and return ids or None (the empty list collapses to None). The file
argument carries the lines of the file when a path was given. -/
def _load_id_list (argVal : Option String) (fileLines : Option (List String)) :
    Except ParseError (Option (List Int)) :=
  match parseAll (allTokens argVal fileLines) with
  | .error e => .error e
  | .ok ids => .ok (if ids.isEmpty then none else some ids)

/-- ASCII case folding on a byte, as the re.I flag applies to the pattern. -/
def byteLower (b : Nat) : Nat := if 65 ≤ b ∧ b ≤ 90 then b + 32 else b

def strBytes (s : String) : List Nat := s.toList.map Char.toNat

/-- The literal part of ENC_RE: the bytes of encoding= followed by a
double quote (byte 34). -/
def encLit : List Nat := strBytes "encoding=" ++ [34]

def matchesAt (pat s : List Nat) : Bool :=
  decide (pat.length ≤ s.length) && ((s.take pat.length).map byteLower == pat.map byteLower)

/-- The capture group of ENC_RE at a fixed start: the maximal run of
non-quote bytes, which must be nonempty and followed by a closing quote. -/
def captureEnc (s : List Nat) : Option (List Nat) :=
  let cap := s.takeWhile (fun b => b != 34)
  if cap.length != 0 && decide (cap.length < s.length) then some cap else none

/-- re.search of ENC_RE: the leftmost position where the literal matches
case-insensitively and a closing quote exists captures the value. -/
def encSearch : List Nat → Option (List Nat)
  | [] => none
  | b :: rest =>
    if matchesAt encLit (b :: rest) then
      match captureEnc ((b :: rest).drop encLit.length) with
      | some cap => some cap
      | none => encSearch rest
    else encSearch rest

/-- bytes.decode with the ascii codec and errors ignore, then str.lower:
bytes outside ASCII are dropped and letters are folded to lower case. -/
def asciiIgnoreLower (bs : List Nat) : String :=
  String.mk ((bs.filter (fun b => decide (b < 128))).map (fun b => Char.ofNat (byteLower b)))

def utf16Aliases : List String :=
  ["iso-10646-ucs-2", "utf-16", "utf-16le", "utf-16be", "ucs-2", "unicode"]

/-- _detect_xml_encoding: a two-byte UTF-16 BOM wins, else the encoding
attribute scraped from the first 200 bytes (aliases mapped to utf-16le,
other names lowercased with non-ASCII bytes dropped), else utf-8. -/
def _detect_xml_encoding (raw : List Nat) : String :=
  if raw.take 2 == [255, 254] then "utf-16le"
  else if raw.take 2 == [254, 255] then "utf-16be"
  else
    match encSearch (raw.take 200) with
    | some cap =>
      let enc := asciiIgnoreLower cap
      if utf16Aliases.contains enc then "utf-16le" else enc
    | none => "utf-8"

/-- pd.to_datetime on the TimeGenerated cell of one row, with
errors coerce: the parse function stands for the pandas timestamp parser
and a missing or unparsable value becomes the missing marker (none). -/
def parseTimeCell (p : Value → Option Int) (r : Row) : Option Int :=
  match rowGet r "TimeGenerated" with
  | some v => p v
  | none => none

/-- The column-wide assignment that replaces the TimeGenerated cell with
its parsed timestamp, NaT when unparsable. -/
def timeConvRow (p : Value → Option Int) (r : Row) : Row :=
  match parseTimeCell p r with
  | some t => rowSet r "TimeGenerated" (.time t)
  | none => rowSet r "TimeGenerated" .null

def setColDType (cols : List Col) (c : String) (d : DType) : List Col :=
  cols.map (fun k => if k.name == c then { k with dtype := d } else k)

/-- The time window step of _filter_frame: when a TimeGenerated column
exists, convert it with to_datetime and keep the rows whose timestamp
satisfies both inclusive bound comparisons (NaT compares false). -/
def applyTimeFilter (p : Value → Option Int) (s e : Int) (f : Frame) : Frame :=
  if f.hasCol "TimeGenerated" then
    let converted := f.rows.map (timeConvRow p)
    let kept := converted.filter (fun r =>
      match rowGet r "TimeGenerated" with
      | some (.time t) => decide (s ≤ t) && decide (t ≤ e)
      | _ => false)
    { cols := setColDType f.cols "TimeGenerated" .datetime64, rows := kept }
  else f

/-- Series.isin on one cell against a list of integers: value equality,
so only an integer cell can be a member. -/
def valIsIn (v : Option Value) (l : List Int) : Bool :=
  match v with
  | some (.int n) => l.contains n
  | _ => false

/-- The inclusion statement of _filter_frame: applied only when an
inclusion set is configured and an EventID column exists. -/
def applyInclFilter (incl : Option (List Int)) (f : Frame) : Frame :=
  match incl with
  | none => f
  | some l =>
    if f.hasCol "EventID" then
      { f with rows := f.rows.filter (fun r => valIsIn (rowGet r "EventID") l) }
    else f

/-- The exclusion statement of _filter_frame: applied only when an
exclusion set is configured and an EventID column exists. -/
def applyExclFilter (excl : Option (List Int)) (f : Frame) : Frame :=
  match excl with
  | none => f
  | some l =>
    if f.hasCol "EventID" then
      { f with rows := f.rows.filter (fun r => !valIsIn (rowGet r "EventID") l) }
    else f

/-- The EventID steps of _filter_frame: the inclusion filter, then the
exclusion filter. -/
def applyIdFilter (incl excl : Option (List Int)) (f : Frame) : Frame :=
  applyExclFilter excl (applyInclFilter incl f)

/-- bytes.decode with the utf-16le codec and errors ignore: little-endian
code-unit pairs, surrogate pairs combined, invalid sequences and a
trailing odd byte dropped. -/
def utf16Chars : List Nat → List Char
  | [] => []
  | [_] => []
  | b0 :: b1 :: rest =>
    let u := (b0 % 256) + 256 * (b1 % 256)
    if u < 55296 ∨ 57344 ≤ u then
      Char.ofNat u :: utf16Chars rest
    else if u ≤ 56319 then
      match rest with
      | [] => []
      | [_] => []
      | b2 :: b3 :: rest2 =>
        let v := (b2 % 256) + 256 * (b3 % 256)
        if 56320 ≤ v ∧ v ≤ 57343 then
          Char.ofNat (65536 + (u - 55296) * 1024 + (v - 56320)) :: utf16Chars rest2
        else utf16Chars (b2 :: b3 :: rest2)
    else utf16Chars rest
termination_by bs => bs.length
decreasing_by all_goals simp_arith

def decodeUtf16leIgnore (bs : List Nat) : String := String.mk (utf16Chars bs)

/-- The per-cell body of the apply in _filter_frame: raw binary is
decoded as UTF-16 little-endian, anything else is stringified. -/
def cellToStr : Value → String
  | .bytes b => decodeUtf16leIgnore b
  | .str s => s
  | .int n => toString n
  | .time t => toString t
  | .null => "nan"

/-- str.replace of the comma with the placeholder, character by
character (the pattern is the single comma character). -/
def replCommaList (ph : List Char) : List Char → List Char
  | [] => []
  | c :: cs => (if c = ',' then ph else [c]) ++ replCommaList ph cs

def pyReplaceComma (ph s : String) : String := String.mk (replCommaList ph.toList s.toList)

/-- One normalized cell: stringified then comma-escaped. -/
def normCell (ph : String) (v : Value) : Value :=
  Value.str (pyReplaceComma ph (cellToStr v))

/-- The column assignment df col = transformed, restricted to one row. -/
def normRowForCol (ph : String) (cname : String) (r : Row) : Row :=
  match rowGet r cname with
  | some v => rowSet r cname (normCell ph v)
  | none => r

def objColNames (f : Frame) : List String :=
  (f.cols.filter (fun c => c.dtype == DType.object)).map (fun c => c.name)

/-- The normalization loop of _filter_frame: every object-dtype column is
mapped to displayable strings with the delimiter escaped. -/
def normalizeObjCols (ph : String) (f : Frame) : Frame :=
  { f with rows := f.rows.map (fun r =>
      (objColNames f).foldl (fun r2 c => normRowForCol ph c r2) r) }

/-- _filter_frame: time window, then EventID inclusion and exclusion,
then value normalization of the object columns. -/
def _filter_frame (p : Value → Option Int) (s e : Int)
    (incl excl : Option (List Int)) (ph : String) (f : Frame) : Frame :=
  normalizeObjCols ph (applyIdFilter incl excl (applyTimeFilter p s e f))

/-- The Python exceptions the worker can see from its helpers. -/
inductive PyExc where
  | nameError (n : String)
  | valueError
  | other (msg : String)
  deriving DecidableEq, Repr

def excMsg : PyExc → String
  | .nameError n => "NameError: name " ++ n ++ " is not defined"
  | .valueError => "ValueError"
  | .other m => m

/-- The observable events of one run: console/log records, the error-log
file append, the decoder invocation, and temporary-tree removal. -/
inductive Event where
  | logErr (msg : String)
  | logInfo (msg : String)
  | fileAppend (file msg : String)
  | runLP (cmd : List String)
  | rmtree (dir : String)
  deriving DecidableEq, Repr

/-- The events of _log_error: the logging call always happens; the append
to the error-log file is attempted and any exception is swallowed. -/
def logErrorEvents (writeResult : Except PyExc Unit) (logFile msg : String) : List Event :=
  [.logErr msg] ++
  (match writeResult with
   | .ok _ => [.fileAppend logFile msg]
   | .error _ => [])

/-- _log_error: it never raises, whatever the file append does. -/
def logErrorRun (writeResult : Except PyExc Unit) (logFile msg : String) :
    Except PyExc Unit × List Event :=
  (.ok (), logErrorEvents writeResult logFile msg)

def squote : String := String.mk [Char.ofNat 39]

/-- _build_lp_cmd: the decoder command line with the INTO query. -/
def _build_lp_cmd (lp src dstXml : String) : List String :=
  [lp, "SELECT * INTO " ++ dstXml ++ " FROM " ++ squote ++ src ++ squote,
   "-i:EVT", "-o:XML", "-structure:1", "-q:ON"]

/-- What one pd.read_xml call does: a parsed frame, the two exception
classes the program distinguishes, or any other exception. -/
inductive PdXml where
  | ok (f : Frame)
  | xpathErr
  | valueErr
  | otherErr (msg : String)
  deriving Repr

/-- The environment of _safe_read_xml: the fast-path parse outcome, the
raw bytes of the document, and the outcome of re-parsing the text decoded
with a given codec. -/
structure ReadEnv where
  fastParse : PdXml
  rawBytes : List Nat
  fallbackParse : String → PdXml

/-- _safe_read_xml: try the fast parse; on XPathError or ValueError fall
back to a manual decode guided by _detect_xml_encoding and re-parse. On a
no-rows XPathError from the fallback the source line is return Non, a
misspelling of None, which raises NameError at runtime; a ValueError from
the fallback is not caught at all. -/
def _safe_read_xml (env : ReadEnv) : Except PyExc (Option Frame) :=
  match env.fastParse with
  | .ok f => .ok (some f)
  | .otherErr m => .error (.other m)
  | _ =>
    let enc := _detect_xml_encoding env.rawBytes
    match env.fallbackParse enc with
    | .ok f => .ok (some f)
    | .xpathErr => .error (.nameError "Non")
    | .valueErr => .error .valueError
    | .otherErr m => .error (.other m)

/-- The outcome of the subprocess.run call on the decoder tool. -/
structure RunResult where
  returncode : Int
  stdout : String
  stderr : String
  deriving Repr

/-- One job of the pool: the tuple handed to _worker. -/
structure Job where
  fp : String
  lp : String
  sdt : Int
  edt : Int
  incl : Option (List Int)
  excl : Option (List Int)
  ph : String
  logf : String

/-- The external world one worker run sees: the created temporary
directory, what staging does, what the subprocess does, whether the
decoder output file exists nonempty, what the XML reads do, the pandas
timestamp parser, and whether appends to the error-log file succeed. -/
structure WorkerEnv where
  tmpDir : String
  stageResult : Except PyExc String
  runResult : Except PyExc RunResult
  xmlNonEmpty : Bool
  readEnv : ReadEnv
  parseTS : Value → Option Int
  logWrite : Except PyExc Unit

def tmpXml (dir : String) : String := dir ++ "/lp.xml"

def lpFailMsg (rc : Int) (fp stderrS stdoutS : String) : String :=
  "LogParser failed (" ++ toString rc ++ ") on " ++ fp ++ ":\nSTDERR: " ++
    pyStrip stderrS ++ "\nSTDOUT: " ++ pyStrip stdoutS

/-- df SourceFile = fp: append (or overwrite) an object column holding
the original source path in every row. -/
def addSourceFile (f : Frame) (fp : String) : Frame :=
  { cols := if f.hasCol "SourceFile" then f.cols
            else f.cols ++ [{ name := "SourceFile", dtype := DType.object }],
    rows := f.rows.map (fun r => rowSet r "SourceFile" (Value.str fp)) }

/-- The try block of _worker: staging, the decoder run, the exit-code and
empty-output checks, the XML read, the filter and the SourceFile tag.
The result is the returned value or the exception, with the event trace. -/
def workerBody (env : WorkerEnv) (job : Job) : Except PyExc (Option Frame) × List Event :=
  match env.stageResult with
  | .error ex => (.error ex, [])
  | .ok safeSrc =>
    let cmd := _build_lp_cmd job.lp safeSrc (tmpXml env.tmpDir)
    match env.runResult with
    | .error ex => (.error ex, [.runLP cmd])
    | .ok run =>
      if run.returncode != 0 then
        (.ok none, [.runLP cmd] ++
          logErrorEvents env.logWrite job.logf
            (lpFailMsg run.returncode job.fp run.stderr run.stdout))
      else if !env.xmlNonEmpty then
        (.ok none, [.runLP cmd, .logInfo (job.fp ++ ": log contained 0 events")])
      else
        match _safe_read_xml env.readEnv with
        | .error ex => (.error ex, [.runLP cmd])
        | .ok none =>
          (.ok none, [.runLP cmd, .logInfo (job.fp ++ ": no events in selected time-window")])
        | .ok (some df) =>
          if df.rows.isEmpty then
            (.ok none, [.runLP cmd, .logInfo (job.fp ++ ": no events in selected time-window")])
          else
            let df2 := _filter_frame env.parseTS job.sdt job.edt job.incl job.excl job.ph df
            (.ok (some (addSourceFile df2 job.fp)), [.runLP cmd])

/-- _worker: the try block, the except clause that logs any exception and
returns None, and the finally clause that removes the temporary tree. -/
def _worker (env : WorkerEnv) (job : Job) : Option Frame × List Event :=
  let body := workerBody env job
  let handled : Option Frame × List Event :=
    match body.1 with
    | .ok r => (r, body.2)
    | .error ex =>
      (none, body.2 ++ logErrorEvents env.logWrite job.logf
        ("Exception processing " ++ job.fp ++ ": " ++ excMsg ex))
  (handled.1, handled.2 ++ [.rmtree env.tmpDir])

def frameNames (f : Frame) : List String := f.cols.map (fun c => c.name)

def insSeen (a : List String) (c : String) : List String := if c ∈ a then a else a ++ [c]

/-- The column schema pd.concat produces for frames with differing
columns: the union of the per-frame schemas in first-seen order. -/
def unionFirstSeen (schemas : List (List String)) : List String :=
  schemas.foldl (fun acc cs => cs.foldl insSeen acc) []

/-- The aggregation step of main: concatenate the per-file schemas, then
reorder so that every column except SourceFile keeps its place and
SourceFile comes last. -/
def finalColsOfFrames (frames : List Frame) : List String :=
  let agg := unionFirstSeen (frames.map frameNames)
  agg.filter (fun c => c != "SourceFile") ++ ["SourceFile"]

/-- First-seen deduplication, written directly on the flattened column
list: the claim-side reading of the union in first-seen order. -/
def dedupFirst : List String → List String
  | [] => []
  | c :: cs => c :: dedupFirst (cs.filter (fun d => d != c))
termination_by l => l.length
decreasing_by exact Nat.lt_succ_of_le (List.length_filter_le _ _)

/-- First-seen deduplication relative to an already-seen prefix. -/
def dedupFrom (acc : List String) : List String → List String
  | [] => []
  | c :: cs => if c ∈ acc then dedupFrom acc cs else c :: dedupFrom (acc ++ [c]) cs

/-- The schema the spec describes: the union of all observed per-file
columns in first-seen order with SourceFile forced to the last place. -/
def specSchema (frames : List Frame) : List String :=
  (dedupFirst ((frames.map frameNames).flatten)).filter (fun c => c != "SourceFile") ++
    ["SourceFile"]

/-- The fatal startup conditions of main. -/
inductive StartupError where
  | parseFailure (e : ParseError)
  | noFiles
  deriving DecidableEq, Repr

/-- What main produces after the pool: either the warning outcome with no
output artifact, or the written table with its ordered schema. -/
inductive MainOut where
  | noOutput
  | wrote (cols : List String) (frames : List Frame)
  deriving Repr

def lowerStr (s : String) : String := String.mk (s.toList.map Char.toLower)

/-- The extension regex of _list_event_files on one filename: a
case-insensitive .evt or .evtx suffix after some text. -/
def matchesEvtExt (f : String) : Bool :=
  (lowerStr f).endsWith ".evt" || (lowerStr f).endsWith ".evtx"

/-- _list_event_files over the walked (directory, filename) pairs. -/
def _list_event_files (walk : List (String × String)) : List String :=
  (walk.filter (fun p => matchesEvtExt p.2)).map (fun p => p.1 ++ "/" ++ p.2)

/-- The environment of main: the CLI filter arguments (with the ID files
already read into lines), the window, the walked tree, and one worker
environment per discovered file. -/
structure MainEnv where
  eventIds : Option String
  eventIdsFileLines : Option (List String)
  excludeEventIds : Option String
  excludeEventIdsFileLines : Option (List String)
  startDt : Int
  endDt : Int
  placeholderChar : String
  logFile : String
  lpPath : String
  walk : List (String × String)
  wenvOf : String → WorkerEnv

/-- main after argument parsing: load both ID lists, discover files, run
one job per file through the pool, keep the non-empty results and
aggregate. Both loader calls happen before any job is dispatched. -/
def runMain (m : MainEnv) : Except StartupError MainOut × List Event :=
  match _load_id_list m.eventIds m.eventIdsFileLines with
  | .error e => (.error (.parseFailure e), [])
  | .ok incIds =>
    match _load_id_list m.excludeEventIds m.excludeEventIdsFileLines with
    | .error e => (.error (.parseFailure e), [])
    | .ok excIds =>
      let files := _list_event_files m.walk
      if files.isEmpty then (.error .noFiles, [])
      else
        let results := files.map (fun f =>
          _worker (m.wenvOf f)
            { fp := f, lp := m.lpPath, sdt := m.startDt, edt := m.endDt,
              incl := incIds, excl := excIds, ph := m.placeholderChar, logf := m.logFile })
        let trace := (results.map (fun r => r.2)).flatten
        let frames := results.filterMap (fun r =>
          match r.1 with
          | some df => if df.rows.isEmpty then none else some df
          | none => none)
        if frames.isEmpty then (.ok .noOutput, trace)
        else (.ok (.wrote (finalColsOfFrames frames) frames), trace)

/-- The survival predicate the claim states for the time window: the
TimeGenerated value parses and lies inside the inclusive window. -/
def survivesTime (p : Value → Option Int) (s e : Int) (r : Row) : Bool :=
  match parseTimeCell p r with
  | some t => decide (s ≤ t) && decide (t ≤ e)
  | none => false

/-- Membership in the inclusion set, trivially true when none is
configured. -/
def inclPred (incl : Option (List Int)) (r : Row) : Bool :=
  match incl with
  | none => true
  | some l => valIsIn (rowGet r "EventID") l

/-- Non-membership in the exclusion set, trivially true when none is
configured. -/
def exclPred (excl : Option (List Int)) (r : Row) : Bool :=
  match excl with
  | none => true
  | some l => !valIsIn (rowGet r "EventID") l

/-- The survival predicate the claim states for the EventID filters:
membership in the inclusion set when configured, and non-membership in
the exclusion set when configured, simultaneously. -/
def survivesId (incl excl : Option (List Int)) (r : Row) : Bool :=
  (match incl with
   | none => true
   | some l => valIsIn (rowGet r "EventID") l) &&
  (match excl with
   | none => true
   | some l => !valIsIn (rowGet r "EventID") l)

/-- No character of the string is the output delimiter. -/
def noCommaStr (s : String) : Bool := s.toList.all (fun c => c != ',')

/-- One cell is display-safe for the claim: absent, or a string without a
literal comma. -/
def cellCommaFree (cname : String) (r : Row) : Bool :=
  match rowGet r cname with
  | some (Value.str s) => noCommaStr s
  | some _ => false
  | none => true

/-- Every cell of every object column is a comma-free string. -/
def frameObjCellsCommaFree (f : Frame) : Bool :=
  f.cols.all (fun c => c.dtype != DType.object || f.rows.all (fun r => cellCommaFree c.name r))

def valueHasComma : Value → Bool
  | .str s => s.toList.contains ','
  | _ => false

/-- Some object-column cell holds a literal comma. -/
def frameHasCommaInObjectCell (f : Frame) : Bool :=
  f.cols.any (fun c => c.dtype == DType.object && f.rows.any (fun r =>
    match rowGet r c.name with
    | some v => valueHasComma v
    | none => false))

/-- No two-byte UTF-16 byte-order mark opens the document. -/
def noBom (raw : List Nat) : Prop := raw.take 2 ≠ [255, 254] ∧ raw.take 2 ≠ [254, 255]

/-- The declared-attribute stage of the encoding policy, as the code
implements it: the attribute scraped from the first 200 bytes, aliases
mapped to utf-16le, other names ASCII-filtered and lowercased, utf-8 as
the default. -/
def declaredPolicy (raw : List Nat) : String :=
  match encSearch (raw.take 200) with
  | some cap =>
    let enc := asciiIgnoreLower cap
    if utf16Aliases.contains enc then "utf-16le" else enc
  | none => "utf-8"

def isRmtree : Event → Bool
  | .rmtree _ => true
  | _ => false

def isLogErrEv : Event → Bool
  | .logErr _ => true
  | _ => false

def isLogInfoEv : Event → Bool
  | .logInfo _ => true
  | _ => false

/-- A decoder output document with no ROW elements: the fast parse and
the manual-decode re-parse both report the no-rows condition. -/
def c1ReadEnv : ReadEnv :=
  { fastParse := .xpathErr,
    rawBytes := strBytes "<ROOT></ROOT>",
    fallbackParse := fun _ => .xpathErr }

/-- The same document under a pandas version whose no-rows failure is a
ValueError, which the fallback does not catch either. -/
def c1ReadEnvVE : ReadEnv :=
  { c1ReadEnv with fallbackParse := fun _ => .valueErr }

def c1Job : Job :=
  { fp := "logs/empty.evtx", lp := "LogParser.exe", sdt := 0, edt := 100,
    incl := none, excl := none, ph := "§", logf := "out.csv.log" }

def c1Env : WorkerEnv :=
  { tmpDir := "tmp/evtfilter_1", stageResult := .ok "tmp/evtfilter_1/s_empty.evtx",
    runResult := .ok { returncode := 0, stdout := "", stderr := "" },
    xmlNonEmpty := true, readEnv := c1ReadEnv, parseTS := fun _ => none,
    logWrite := .ok () }

def c1EnvVE : WorkerEnv := { c1Env with readEnv := c1ReadEnvVE }

def defaultReadEnv : ReadEnv :=
  { fastParse := .xpathErr, rawBytes := [], fallbackParse := fun _ => .xpathErr }

def defaultWorkerEnv : WorkerEnv :=
  { tmpDir := "t", stageResult := .ok "t/f",
    runResult := .ok { returncode := 1, stdout := "", stderr := "" },
    xmlNonEmpty := false, readEnv := defaultReadEnv, parseTS := fun _ => none,
    logWrite := .ok () }

/-- A startup environment whose inline inclusion list holds a token that
is not an integer. -/
def c3MainEnv : MainEnv :=
  { eventIds := some "4624,oops", eventIdsFileLines := none,
    excludeEventIds := none, excludeEventIdsFileLines := none,
    startDt := 0, endDt := 10, placeholderChar := "§", logFile := "log",
    lpPath := "lp", walk := [("root", "a.evtx")], wenvOf := fun _ => defaultWorkerEnv }

/-- A parsed table with one object column, used to instantiate the
normalization theorem at a concrete input. -/
def c4WitFrame : Frame :=
  { cols := [{ name := "Message", dtype := .object }, { name := "EventID", dtype := .int64 }],
    rows := [[("Message", .str "a,b"), ("EventID", .int 4624)]] }

def c4ReadFrame : Frame :=
  { cols := [{ name := "EventID", dtype := .int64 }, { name := "Message", dtype := .object }],
    rows := [[("EventID", .int 1), ("Message", .str "hi,there")]] }

/-- A job whose original source path contains the output delimiter. -/
def c4Job : Job :=
  { fp := "dir/evil,name.evtx", lp := "lp", sdt := 0, edt := 10,
    incl := none, excl := none, ph := "§", logf := "log" }

def c4Env : WorkerEnv :=
  { tmpDir := "t4", stageResult := .ok "t4/staged.evtx",
    runResult := .ok { returncode := 0, stdout := "", stderr := "" },
    xmlNonEmpty := true,
    readEnv := { fastParse := .ok c4ReadFrame, rawBytes := [],
                 fallbackParse := fun _ => .xpathErr },
    parseTS := fun _ => none, logWrite := .ok () }

/-- A document declaring encoding windows-1252, without a BOM. -/
def c5WitRaw : List Nat :=
  strBytes "<?xml version=" ++ [34] ++ strBytes "1.0" ++ [34] ++
    strBytes " encoding=" ++ [34] ++ strBytes "windows-1252" ++ [34] ++ strBytes "?>"

/-- A document declaring encoding UTF-8 in upper case, without a BOM. -/
def c5CexRaw : List Nat :=
  strBytes "<?xml version=" ++ [34] ++ strBytes "1.0" ++ [34] ++
    strBytes " encoding=" ++ [34] ++ strBytes "UTF-8" ++ [34] ++ strBytes "?>"

theorem rowGet_rowSet_self (r : Row) (c : String) (v : Value) :
    rowGet (rowSet r c v) c = some v := by
  induction r with
  | nil => simp [rowSet, rowGet]
  | cons p ps ih =>
    by_cases h : p.1 = c
    · simp [rowSet, rowGet, h]
    · simp [rowSet, rowGet, h, ih]

theorem rowGet_rowSet_ne (r : Row) (c c2 : String) (v : Value) (h : c2 ≠ c) :
    rowGet (rowSet r c2 v) c = rowGet r c := by
  induction r with
  | nil => simp [rowSet, rowGet, h]
  | cons p ps ih =>
    by_cases hp : p.1 = c2
    · simp [rowSet, rowGet, hp, h]
    · simp [rowSet, rowGet, hp, ih]

theorem filter_map_comm {α β : Type} (f : α → β) (p : β → Bool) (l : List α) :
    (l.map f).filter p = (l.filter (fun a => p (f a))).map f := by
  induction l with
  | nil => rfl
  | cons a as ih =>
    by_cases h : p (f a) = true <;> simp [h, ih]

theorem timeConv_pred (p : Value → Option Int) (s e : Int) (r : Row) :
    (match rowGet (timeConvRow p r) "TimeGenerated" with
     | some (.time t) => decide (s ≤ t) && decide (t ≤ e)
     | _ => false) = survivesTime p s e r := by
  unfold timeConvRow survivesTime
  cases h : parseTimeCell p r with
  | none => simp [rowGet_rowSet_self]
  | some t => simp [rowGet_rowSet_self]

/-- C6: a row of a table with a TimeGenerated column survives the time
filter exactly when its TimeGenerated value parses to a timestamp inside
the inclusive window (unparsable values are dropped), and a table without
that column loses no rows to the time filter. -/
theorem c6_time_filter (p : Value → Option Int) (s e : Int) (f : Frame) :
    (applyTimeFilter p s e f).rows =
      if f.hasCol "TimeGenerated" then
        (f.rows.filter (survivesTime p s e)).map (timeConvRow p)
      else f.rows := by
  unfold applyTimeFilter
  cases h : f.hasCol "TimeGenerated" with
  | false => simp [h]
  | true =>
    simp only [h, if_true]
    rw [filter_map_comm]
    congr 1
    apply List.filter_congr
    intro r _
    exact timeConv_pred p s e r

/-- C7: a row of a table with an EventID column survives the EventID
filters exactly when it is in the inclusion set (when configured) and not
in the exclusion set (when configured), both at once when both are
configured; without an EventID column neither filter drops a row, and the
schema is never changed. -/
theorem applyInclFilter_cols (incl : Option (List Int)) (f : Frame) :
    (applyInclFilter incl f).cols = f.cols := by
  cases incl with
  | none => rfl
  | some l =>
    show (if f.hasCol "EventID" = true then ({ f with
        rows := f.rows.filter (fun r => valIsIn (rowGet r "EventID") l) } : Frame)
      else f).cols = f.cols
    split
    · rfl
    · rfl

theorem applyExclFilter_cols (excl : Option (List Int)) (f : Frame) :
    (applyExclFilter excl f).cols = f.cols := by
  cases excl with
  | none => rfl
  | some l =>
    show (if f.hasCol "EventID" = true then ({ f with
        rows := f.rows.filter (fun r => !valIsIn (rowGet r "EventID") l) } : Frame)
      else f).cols = f.cols
    split
    · rfl
    · rfl

theorem hasCol_of_cols_eq (g f : Frame) (c : String) (h : g.cols = f.cols) :
    g.hasCol c = f.hasCol c := by
  unfold Frame.hasCol
  rw [h]

theorem applyInclFilter_rows (incl : Option (List Int)) (f : Frame) :
    (applyInclFilter incl f).rows =
      if f.hasCol "EventID" then f.rows.filter (inclPred incl) else f.rows := by
  cases incl with
  | none =>
    by_cases h : f.hasCol "EventID" = true
    · rw [if_pos h]
      exact (List.filter_eq_self.mpr (fun r _ => rfl)).symm
    · rw [if_neg h]
      rfl
  | some l =>
    show (if f.hasCol "EventID" = true then ({ f with
        rows := f.rows.filter (fun r => valIsIn (rowGet r "EventID") l) } : Frame)
      else f).rows = _
    by_cases h : f.hasCol "EventID" = true
    · rw [if_pos h, if_pos h]
      rfl
    · rw [if_neg h, if_neg h]

theorem applyExclFilter_rows (excl : Option (List Int)) (f : Frame) :
    (applyExclFilter excl f).rows =
      if f.hasCol "EventID" then f.rows.filter (exclPred excl) else f.rows := by
  cases excl with
  | none =>
    by_cases h : f.hasCol "EventID" = true
    · rw [if_pos h]
      exact (List.filter_eq_self.mpr (fun r _ => rfl)).symm
    · rw [if_neg h]
      rfl
  | some l =>
    show (if f.hasCol "EventID" = true then ({ f with
        rows := f.rows.filter (fun r => !valIsIn (rowGet r "EventID") l) } : Frame)
      else f).rows = _
    by_cases h : f.hasCol "EventID" = true
    · rw [if_pos h, if_pos h]
      rfl
    · rw [if_neg h, if_neg h]

/-- C7: a row of a table with an EventID column survives the EventID
filters exactly when it is in the inclusion set (when configured) and not
in the exclusion set (when configured), both at once when both are
configured; without an EventID column neither filter drops a row, and the
schema is never changed. -/
theorem c7_id_filter (incl excl : Option (List Int)) (f : Frame) :
    (applyIdFilter incl excl f).rows =
      (if f.hasCol "EventID" then f.rows.filter (survivesId incl excl) else f.rows) ∧
    (applyIdFilter incl excl f).cols = f.cols := by
  unfold applyIdFilter
  have hc : (applyInclFilter incl f).hasCol "EventID" = f.hasCol "EventID" :=
    hasCol_of_cols_eq _ _ _ (applyInclFilter_cols incl f)
  constructor
  · rw [applyExclFilter_rows, hc, applyInclFilter_rows]
    by_cases h : f.hasCol "EventID" = true
    · rw [if_pos h, if_pos h, if_pos h, List.filter_filter]
      apply List.filter_congr
      intro r _
      show (exclPred excl r && inclPred incl r) = survivesId incl excl r
      rw [Bool.and_comm]
      rfl
    · rw [if_neg h, if_neg h, if_neg h]
  · rw [applyExclFilter_cols, applyInclFilter_cols]

/-- C10: the error reporter never raises — the logging call always
happens first and a failing append to the error-log file is swallowed. -/
theorem c10_log_error_swallows (w : Except PyExc Unit) (lf msg : String) :
    (logErrorRun w lf msg).1 = Except.ok () ∧
    (logErrorRun w lf msg).2.head? = some (Event.logErr msg) := by
  cases w <;> simp [logErrorRun, logErrorEvents]

theorem parseAll_error_iff (ts : List String) :
    (∃ e, parseAll ts = Except.error e) ↔ ∃ t ∈ ts, pyParseInt t = none := by
  induction ts with
  | nil => simp [parseAll]
  | cons t ts ih =>
    simp only [parseAll]
    cases hp : pyParseInt t with
    | none =>
      constructor
      · intro _
        exact ⟨t, List.mem_cons_self t ts, hp⟩
      · intro _
        exact ⟨ParseError.invalidLiteral t, rfl⟩
    | some n =>
      cases hr : parseAll ts with
      | error e0 =>
        constructor
        · intro _
          rcases ih.mp ⟨e0, hr⟩ with ⟨t2, ht2, hpt2⟩
          exact ⟨t2, List.mem_cons_of_mem _ ht2, hpt2⟩
        · intro _
          exact ⟨e0, rfl⟩
      | ok ns =>
        constructor
        · rintro ⟨e, he⟩
          cases he
        · rintro ⟨t2, ht2, hpt2⟩
          rcases List.mem_cons.mp ht2 with h | h
          · subst h
            rw [hp] at hpt2
            cases hpt2
          · rcases ih.mpr ⟨t2, h, hpt2⟩ with ⟨e, he⟩
            rw [hr] at he
            cases he

theorem load_error_iff (a : Option String) (fl : Option (List String)) :
    (∃ e, _load_id_list a fl = Except.error e) ↔
      ∃ t ∈ allTokens a fl, pyParseInt t = none := by
  rw [← parseAll_error_iff]
  unfold _load_id_list
  cases h : parseAll (allTokens a fl) with
  | error e => simp
  | ok ids => simp

/-- C3: the filter-spec loader fails with a parse error exactly when some
nonempty token of the inline list or of the ID file is not a valid
integer, and such a failure aborts main before any job runs: the run
errors out with an empty event trace. -/
theorem c3_parse_error_startup :
    (∀ (a : Option String) (fl : Option (List String)),
        ((∃ e, _load_id_list a fl = Except.error e) ↔
          ∃ t ∈ allTokens a fl, pyParseInt t = none)) ∧
    (∀ m : MainEnv,
        ((∃ e, _load_id_list m.eventIds m.eventIdsFileLines = Except.error e) ∨
         (∃ e, _load_id_list m.excludeEventIds m.excludeEventIdsFileLines = Except.error e)) →
        (∃ s, (runMain m).1 = Except.error s) ∧ (runMain m).2 = []) := by
  constructor
  · exact load_error_iff
  · intro m hm
    unfold runMain
    cases h1 : _load_id_list m.eventIds m.eventIdsFileLines with
    | error e => exact ⟨⟨.parseFailure e, rfl⟩, rfl⟩
    | ok inc =>
      cases h2 : _load_id_list m.excludeEventIds m.excludeEventIdsFileLines with
      | error e => exact ⟨⟨.parseFailure e, rfl⟩, rfl⟩
      | ok exc =>
        rcases hm with ⟨e, he⟩ | ⟨e, he⟩
        · rw [h1] at he
          cases he
        · rw [h2] at he
          cases he

/-- C3 witness: a malformed inline token makes main fail at startup with
no job activity. -/
theorem c3_startup_witness :
    (∃ s, (runMain c3MainEnv).1 = Except.error s) ∧ (runMain c3MainEnv).2 = [] :=
  c3_parse_error_startup.2 c3MainEnv
    (Or.inl ⟨ParseError.invalidLiteral "oops", rfl⟩)

/-- C2 counterexample: the inline source is present (a lone comma, which
holds no tokens) yet the loader returns None rather than an empty set. -/
theorem c2_counterexample :
    _load_id_list (some ",") none = Except.ok none ∧
    some "," ≠ (none : Option String) := by
  constructor
  · rfl
  · simp

/-- C2 amended: the loader returns None exactly when the two sources
contain no tokens at all, so a present-but-empty source is
indistinguishable from an absent one. -/
theorem c2_amended_none_iff_no_tokens (a : Option String) (fl : Option (List String)) :
    (_load_id_list a fl = Except.ok none) ↔ allTokens a fl = [] := by
  unfold _load_id_list
  cases h : allTokens a fl with
  | nil => simp [parseAll]
  | cons t ts =>
    simp only [parseAll]
    cases hp : pyParseInt t with
    | none => simp
    | some n =>
      cases hr : parseAll ts with
      | error e => simp
      | ok ns => simp

/-- C5 counterexample: with no BOM, the declared attribute UTF-8 is
matched, but the detector returns the lowercased utf-8, not the declared
name verbatim. -/
theorem c5_counterexample :
    encSearch (c5CexRaw.take 200) = some (strBytes "UTF-8") ∧
    _detect_xml_encoding c5CexRaw = "utf-8" ∧
    asciiIgnoreLower (strBytes "UTF-8") ≠ "UTF-8" ∧
    "utf-8" ≠ "UTF-8" := by
  refine ⟨by decide, by decide, by decide, by decide⟩

/-- C5 amended: a UTF-16 BOM takes precedence over everything, and
without one the detector follows the declared-attribute policy of the
first 200 bytes — aliases to utf-16le, other declared names with their
non-ASCII bytes dropped and letters lowercased, utf-8 as default. -/
theorem c5_amended_policy :
    (∀ rest : List Nat, _detect_xml_encoding (255 :: 254 :: rest) = "utf-16le") ∧
    (∀ rest : List Nat, _detect_xml_encoding (254 :: 255 :: rest) = "utf-16be") ∧
    (∀ raw : List Nat, noBom raw → _detect_xml_encoding raw = declaredPolicy raw) := by
  refine ⟨fun rest => rfl, fun rest => rfl, fun raw h => ?_⟩
  have h1 : ¬ ((raw.take 2 == [255, 254]) = true) := by simp [h.1]
  have h2 : ¬ ((raw.take 2 == [254, 255]) = true) := by simp [h.2]
  unfold _detect_xml_encoding declaredPolicy
  rw [if_neg h1, if_neg h2]

/-- C5 witness: a plain windows-1252 declaration without a BOM follows
the declared-attribute stage of the policy. -/
theorem c5_policy_witness :
    _detect_xml_encoding c5WitRaw = declaredPolicy c5WitRaw :=
  c5_amended_policy.2.2 c5WitRaw (by constructor <;> decide)

theorem noComma_replCommaList (ph : List Char) (hph : ∀ c ∈ ph, c ≠ ',') :
    ∀ cs, ∀ c ∈ replCommaList ph cs, c ≠ ',' := by
  intro cs
  induction cs with
  | nil =>
    intro c hc
    cases hc
  | cons d ds ih =>
    intro c hc
    simp only [replCommaList] at hc
    by_cases hd : d = ','
    · rw [if_pos hd] at hc
      rcases List.mem_append.mp hc with h1 | h1
      · exact hph c h1
      · exact ih c h1
    · rw [if_neg hd] at hc
      rcases List.mem_append.mp hc with h1 | h1
      · rw [List.mem_singleton.mp h1]
        exact hd
      · exact ih c h1

theorem noCommaStr_pyReplaceComma (ph s : String) (hph : noCommaStr ph = true) :
    noCommaStr (pyReplaceComma ph s) = true := by
  apply List.all_eq_true.mpr
  intro c hc
  have hne : c ≠ ',' := by
    refine noComma_replCommaList ph.toList ?_ s.toList c hc
    intro d hd
    have hdd := List.all_eq_true.mp hph d hd
    simpa using hdd
  simpa using hne

theorem cellCommaFree_norm_self (ph : String) (hph : noCommaStr ph = true)
    (cname : String) (r : Row) :
    cellCommaFree cname (normRowForCol ph cname r) = true := by
  unfold normRowForCol
  cases h : rowGet r cname with
  | none =>
    unfold cellCommaFree
    rw [h]
  | some v =>
    unfold cellCommaFree
    rw [rowGet_rowSet_self]
    exact noCommaStr_pyReplaceComma ph (cellToStr v) hph

theorem cellCommaFree_norm_other (ph : String) (hph : noCommaStr ph = true)
    (cname c2 : String) (r : Row) (hok : cellCommaFree cname r = true) :
    cellCommaFree cname (normRowForCol ph c2 r) = true := by
  by_cases he : c2 = cname
  · subst he
    exact cellCommaFree_norm_self ph hph c2 r
  · unfold normRowForCol
    cases h : rowGet r c2 with
    | none => exact hok
    | some v =>
      unfold cellCommaFree at *
      rw [rowGet_rowSet_ne _ _ _ _ he]
      exact hok

theorem cellCommaFree_foldl_pres (ph : String) (hph : noCommaStr ph = true)
    (names : List String) :
    ∀ (r : Row) (cname : String), cellCommaFree cname r = true →
      cellCommaFree cname (names.foldl (fun r2 c => normRowForCol ph c r2) r) = true := by
  induction names with
  | nil =>
    intro r cname h
    exact h
  | cons c cs ih =>
    intro r cname h
    rw [List.foldl_cons]
    exact ih _ _ (cellCommaFree_norm_other ph hph cname c r h)

theorem cellCommaFree_foldl (ph : String) (hph : noCommaStr ph = true)
    (names : List String) :
    ∀ (r : Row) (cname : String), cname ∈ names →
      cellCommaFree cname (names.foldl (fun r2 c => normRowForCol ph c r2) r) = true := by
  induction names with
  | nil =>
    intro r cname h
    cases h
  | cons c cs ih =>
    intro r cname h
    rw [List.foldl_cons]
    rcases List.mem_cons.mp h with h1 | h1
    · subst h1
      exact cellCommaFree_foldl_pres ph hph cs _ cname
        (cellCommaFree_norm_self ph hph cname r)
    · exact ih _ _ h1

/-- C4 amended: after the normalization step of _filter_frame, every cell
present in an object-dtype column is a string with every literal
delimiter replaced (given a delimiter-free placeholder); the SourceFile
column is appended only afterwards and is not covered. -/
theorem c4_amended_escape (p : Value → Option Int) (s e : Int)
    (incl excl : Option (List Int)) (ph : String) (f : Frame)
    (hph : noCommaStr ph = true) :
    frameObjCellsCommaFree (_filter_frame p s e incl excl ph f) = true := by
  unfold _filter_frame normalizeObjCols frameObjCellsCommaFree
  apply List.all_eq_true.mpr
  intro c hcmem
  by_cases hobj : c.dtype = DType.object
  · have hname : c.name ∈ objColNames (applyIdFilter incl excl (applyTimeFilter p s e f)) :=
      List.mem_map.mpr ⟨c, List.mem_filter.mpr ⟨hcmem, by simp [hobj]⟩, rfl⟩
    have hall : (((applyIdFilter incl excl (applyTimeFilter p s e f)).rows.map
        (fun r => (objColNames (applyIdFilter incl excl (applyTimeFilter p s e f))).foldl
          (fun r2 c2 => normRowForCol ph c2 r2) r)).all
        (fun r => cellCommaFree c.name r)) = true := by
      apply List.all_eq_true.mpr
      intro r hr
      rcases List.mem_map.mp hr with ⟨r0, _, hr0⟩
      subst hr0
      exact cellCommaFree_foldl ph hph _ r0 c.name hname
    rw [hall, Bool.or_true]
  · have hne : (c.dtype != DType.object) = true := by simp [hobj]
    rw [hne, Bool.true_or]

/-- C4 amended witness: the normalization theorem at a concrete table and
the default placeholder. -/
theorem c4_amended_witness :
    frameObjCellsCommaFree
      (_filter_frame (fun _ => none) 0 10 none none "§" c4WitFrame) = true :=
  c4_amended_escape (fun _ => none) 0 10 none none "§" c4WitFrame (by decide)

/-- C4 counterexample: a worker whose job source path carries a comma
returns a frame whose SourceFile object cell still holds the literal
delimiter, though the placeholder itself is delimiter-free. -/
theorem c4_counterexample :
    ((_worker c4Env c4Job).1.map frameHasCommaInObjectCell) = some true ∧
    ((_worker c4Env c4Job).1.map (fun fr => fr.rows.map (fun r => rowGet r "SourceFile"))) =
      some [some (Value.str "dir/evil,name.evtx")] ∧
    noCommaStr "§" = true := by
  refine ⟨rfl, rfl, by decide⟩

/-- C1: on a decoder output whose manual-decode fallback also finds no
ROW elements, _safe_read_xml does not return the None signal: the
misspelled return Non raises NameError (and under the shimmed pandas the
no-rows ValueError is not caught at all), so the worker lands in its
exception handler and reports an error instead of the informational
empty-result message. -/
theorem c1_fallback_no_rows_raises :
    _safe_read_xml c1ReadEnv = Except.error (PyExc.nameError "Non") ∧
    (_worker c1Env c1Job).1 = none ∧
    (_worker c1Env c1Job).2.any isLogErrEv = true ∧
    (_worker c1Env c1Job).2.any isLogInfoEv = false ∧
    _safe_read_xml c1ReadEnvVE = Except.error PyExc.valueError ∧
    (_worker c1EnvVE c1Job).1 = none ∧
    (_worker c1EnvVE c1Job).2.any isLogErrEv = true ∧
    (_worker c1EnvVE c1Job).2.any isLogInfoEv = false := by
  refine ⟨rfl, rfl, rfl, rfl, rfl, rfl, rfl, rfl⟩

theorem unionFS_flatten (schemas : List (List String)) :
    unionFirstSeen schemas = schemas.flatten.foldl insSeen [] := by
  unfold unionFirstSeen
  suffices h : ∀ (ss : List (List String)) (acc : List String),
      ss.foldl (fun acc cs => cs.foldl insSeen acc) acc = ss.flatten.foldl insSeen acc by
    exact h schemas []
  intro ss
  induction ss with
  | nil =>
    intro acc
    rfl
  | cons cs rest ih =>
    intro acc
    rw [List.foldl_cons, List.flatten_cons, List.foldl_append, ih]

theorem foldl_insSeen_dedupFrom (l : List String) :
    ∀ acc, l.foldl insSeen acc = acc ++ dedupFrom acc l := by
  induction l with
  | nil =>
    intro acc
    simp [dedupFrom]
  | cons c cs ih =>
    intro acc
    rw [List.foldl_cons]
    by_cases h : c ∈ acc
    · have hins : insSeen acc c = acc := if_pos h
      rw [hins, ih acc]
      simp only [dedupFrom, if_pos h]
    · have hins : insSeen acc c = acc ++ [c] := if_neg h
      rw [hins, ih (acc ++ [c])]
      simp only [dedupFrom, if_neg h]
      rw [List.append_assoc]
      rfl

theorem dedupFrom_congr (l : List String) :
    ∀ acc1 acc2, (∀ x, x ∈ acc1 ↔ x ∈ acc2) → dedupFrom acc1 l = dedupFrom acc2 l := by
  induction l with
  | nil =>
    intro _ _ _
    rfl
  | cons c cs ih =>
    intro a1 a2 h
    simp only [dedupFrom]
    by_cases hc : c ∈ a1
    · rw [if_pos hc, if_pos ((h c).mp hc)]
      exact ih a1 a2 h
    · rw [if_neg hc, if_neg (fun hx => hc ((h c).mpr hx))]
      have hstep := ih (a1 ++ [c]) (a2 ++ [c]) (fun x => by
        simp only [List.mem_append]
        exact or_congr (h x) Iff.rfl)
      rw [hstep]

theorem dedupFrom_snoc (l : List String) :
    ∀ (acc : List String) (c : String),
      dedupFrom (acc ++ [c]) l = dedupFrom acc (l.filter (fun d => d != c)) := by
  induction l with
  | nil =>
    intro acc c
    rfl
  | cons d ds ih =>
    intro acc c
    by_cases hdc : d = c
    · subst hdc
      have hd : d ∈ acc ++ [d] := by simp
      have hbne : (d != d) = false := by simp
      simp only [dedupFrom, List.filter_cons, hbne, Bool.false_eq_true, if_false, if_pos hd]
      exact ih acc d
    · have hbne : (d != c) = true := by simp [hdc]
      by_cases hda : d ∈ acc
      · have hd : d ∈ acc ++ [c] := List.mem_append.mpr (Or.inl hda)
        simp only [dedupFrom, List.filter_cons, hbne, if_true, if_pos hd, if_pos hda]
        exact ih acc c
      · have hd : d ∉ acc ++ [c] := by
          intro hx
          rcases List.mem_append.mp hx with h1 | h1
          · exact hda h1
          · exact hdc (List.mem_singleton.mp h1)
        simp only [dedupFrom, List.filter_cons, hbne, if_true, if_neg hd, if_neg hda]
        congr 1
        rw [dedupFrom_congr ds (acc ++ [c] ++ [d]) (acc ++ [d] ++ [c]) (fun x => by
          simp only [List.mem_append, List.mem_singleton]
          tauto)]
        exact ih (acc ++ [d]) c

theorem dedupFrom_nil_len :
    ∀ (n : Nat) (l : List String), l.length ≤ n → dedupFrom [] l = dedupFirst l := by
  intro n
  induction n with
  | zero =>
    intro l h
    have hl : l = [] := List.eq_nil_of_length_eq_zero (Nat.le_zero.mp h)
    subst hl
    simp [dedupFrom, dedupFirst]
  | succ n ih =>
    intro l h
    cases l with
    | nil => simp [dedupFrom, dedupFirst]
    | cons c cs =>
      have hc : c ∉ ([] : List String) := List.not_mem_nil c
      simp only [dedupFrom, dedupFirst, if_neg hc]
      congr 1
      rw [dedupFrom_snoc]
      exact ih _ (le_trans (List.length_filter_le _ _) (Nat.succ_le_succ_iff.mp h))

/-- C8: the aggregated schema equals the union of all observed per-file
columns in first-seen order with SourceFile forced last, and its last
column is always SourceFile. -/
theorem c8_schema (frames : List Frame) :
    finalColsOfFrames frames = specSchema frames ∧
    (finalColsOfFrames frames).getLast? = some "SourceFile" := by
  have h1 : unionFirstSeen (frames.map frameNames) =
      dedupFirst ((frames.map frameNames).flatten) := by
    rw [unionFS_flatten, foldl_insSeen_dedupFrom]
    show dedupFrom [] _ = _
    exact dedupFrom_nil_len _ _ (le_refl _)
  constructor
  · show (unionFirstSeen (frames.map frameNames)).filter (fun c => c != "SourceFile") ++
        ["SourceFile"] = specSchema frames
    rw [h1]
    rfl
  · show ((unionFirstSeen (frames.map frameNames)).filter (fun c => c != "SourceFile") ++
        ["SourceFile"]).getLast? = some "SourceFile"
    exact List.getLast?_concat _

theorem filter_isRmtree_logErrorEvents (w : Except PyExc Unit) (lf m : String) :
    (logErrorEvents w lf m).filter isRmtree = [] := by
  cases w <;> simp [logErrorEvents, isRmtree]

theorem workerBody_no_rmtree (env : WorkerEnv) (job : Job) :
    ((workerBody env job).2).filter isRmtree = [] := by
  unfold workerBody
  split
  · rfl
  · split
    · rfl
    · split
      · simp [List.filter_append, filter_isRmtree_logErrorEvents, isRmtree]
      · split
        · rfl
        · split
          · rfl
          · rfl
          · split
            · rfl
            · rfl

theorem worker_trace_eq (env : WorkerEnv) (job : Job) :
    (_worker env job).2 =
      ((workerBody env job).2 ++
        (match (workerBody env job).1 with
         | .ok _ => []
         | .error ex => logErrorEvents env.logWrite job.logf
             ("Exception processing " ++ job.fp ++ ": " ++ excMsg ex))) ++
      [Event.rmtree env.tmpDir] := by
  simp only [_worker]
  cases hb : (workerBody env job).1 with
  | ok r => simp
  | error ex => simp

/-- C9: every worker run, whatever the outcomes of staging, the decoder
subprocess, the XML reads or any raised exception, removes the temporary
directory exactly once, and that removal is the final action of the
job. -/
theorem c9_cleanup (env : WorkerEnv) (job : Job) :
    (_worker env job).2.filter isRmtree = [Event.rmtree env.tmpDir] ∧
    (_worker env job).2.getLast? = some (Event.rmtree env.tmpDir) := by
  rw [worker_trace_eq]
  constructor
  · rw [List.filter_append, List.filter_append, workerBody_no_rmtree]
    cases hb : (workerBody env job).1 with
    | ok r => simp [isRmtree]
    | error ex => simp [filter_isRmtree_logErrorEvents, isRmtree]
  · exact List.getLast?_concat _

end EvtFilter
